import Mathlib

/-!
# Verification of the `license-plate-remover` repository

Shallow embedding, in Lean 4, of the parts of the repository that the
claims C1..C10 are about:

* `yolo/waiter.py` — `VerboseCloudFormationWaiter.wait` (C1, C2);
* `yolo/client.py` — `YoloClient._do_create_or_update_stack` (C3, C4);
* `yolo/yolo_file.py` — `YoloFile` schema validation and
  `normalize_account` (C7, C10);
* `lprApp/yolo_object_detection/yolo_video.py` — `process_video` (C5, C8);
* `lprApp/views.py` — the `download` view (C6, C9);
* `lprApp/models.py` — the `Video` model (C8).

Python strings are modelled as Lean `String`; the Python `in` substring
test is modelled by `containsSub` below.
-/

set_option autoImplicit false

namespace LPRVerify

/-! ### Substring test (Python `needle in haystack`) -/

/-- `isSubAt p l` : `p` occurs at the very start of `l`. -/
def isSubAt : List Char → List Char → Bool
  | [], _ => true
  | _ :: _, [] => false
  | a :: as, b :: bs => a == b && isSubAt as bs

/-- `hasSub p l` : `p` occurs somewhere inside `l` as a contiguous run. -/
def hasSub : List Char → List Char → Bool
  | p, [] => isSubAt p []
  | p, c :: t => isSubAt p (c :: t) || hasSub p t

/-- Python `needle in haystack` on strings. -/
def containsSub (needle hay : String) : Bool :=
  hasSub needle.data hay.data

/-! ### `yolo/waiter.py` — `VerboseCloudFormationWaiter`

The waiter polls `describe_stacks` once per loop iteration.  Each poll
either raises a botocore `ClientError` (carrying a message string) or
yields the current `StackStatus` string; we model the sequence of poll
results as a function `Nat → PollResult`. -/

/-- One result of a `describe_stacks` call: either a raised
`ClientError` with message `msg`, or the returned `StackStatus`. -/
inductive PollResult where
  | clientError (msg : String)
  | status (s : String)
deriving DecidableEq

/-- How `VerboseCloudFormationWaiter.wait` can finish: `success` models
a normal return (`break`), the other constructors model the exceptions
the method can raise. -/
inductive WaitOutcome where
  | success
  | clientErrorRaised (msg : String)
  | cfError (s : String)
  | timeout
deriving DecidableEq

/-- The three waiter types (keys of `WAITER_TYPE_STATUS_MAP`). -/
inductive WaiterType where
  | stackCreateComplete
  | stackUpdateComplete
  | stackDeleteComplete
deriving DecidableEq

/-- `WAITER_TYPE_STATUS_MAP`. -/
def targetStatus : WaiterType → String
  | .stackCreateComplete => "CREATE_COMPLETE"
  | .stackUpdateComplete => "UPDATE_COMPLETE"
  | .stackDeleteComplete => "DELETE_COMPLETE"

/-- `MAX_TRIES`. -/
def MAX_TRIES : Nat := 120

/-- The body of `wait`'s `while True` loop, unrolled on the remaining
number of allowed tries (`fuel`); `i` is the 0-based index of the next
poll.  `fuel = 0` corresponds to `tries > MAX_TRIES`, which raises
`RuntimeError` (`timeout`).  Otherwise the next poll is examined exactly
as in the source: a `ClientError` breaks out successfully only for the
delete waiter when the message contains both `ValidationError` and
`does not exist`, and is re-raised otherwise; a status equal to the
target breaks out; a status containing `IN_PROGRESS` sleeps and retries;
any other status raises `CloudFormationError`. -/
def waitGo (wt : WaiterType) (polls : Nat → PollResult) : Nat → Nat → WaitOutcome
  | 0, _ => .timeout
  | fuel + 1, i =>
    match polls i with
    | .clientError msg =>
      if containsSub "ValidationError" msg && containsSub "does not exist" msg
          && (wt == .stackDeleteComplete) then
        .success
      else
        .clientErrorRaised msg
    | .status s =>
      if s == targetStatus wt then
        .success
      else if containsSub "IN_PROGRESS" s then
        waitGo wt polls fuel (i + 1)
      else
        .cfError s

/-- `VerboseCloudFormationWaiter.wait`: run the loop with `MAX_TRIES`
polls available, starting at the first poll. -/
def wait (wt : WaiterType) (polls : Nat → PollResult) : WaitOutcome :=
  waitGo wt polls MAX_TRIES 0

/-- A poll on which `wait` breaks out successfully: the target status,
or — for the delete waiter only — a `ClientError` whose message contains
both `ValidationError` and `does not exist`. -/
def successPoll (wt : WaiterType) (p : PollResult) : Bool :=
  match p with
  | .clientError msg =>
    containsSub "ValidationError" msg && containsSub "does not exist" msg
      && (wt == .stackDeleteComplete)
  | .status s => s == targetStatus wt

/-- A poll on which `wait` keeps looping: a non-target status containing
`IN_PROGRESS`. -/
def isProgressPoll (wt : WaiterType) (p : PollResult) : Bool :=
  match p with
  | .clientError _ => false
  | .status s => (s != targetStatus wt) && containsSub "IN_PROGRESS" s

/-! ### `yolo/client.py` — `YoloClient._do_create_or_update_stack`

The method wraps the stack create/update/recreate call in a
`try/except`.  We model the outcome of the performed stack operation
(`TryOutcome`), the `except` clauses (`handleStackErrors`), and the
branch structure including the protection check, recording the SDK calls
the method performs (`CallAction`). -/

/-- A CloudFormation stack tag (`Key`/`Value` pair). -/
structure StackTag where
  key : String
  value : String
deriving DecidableEq

/-- `const.YOLO_STACK_TAGS` entry under key `protected`:
`dict(Key='yolo:Protected', Value='true')`. -/
def yoloProtectedTag : StackTag :=
  { key := "yolo:Protected", value := "true" }

/-- The fields of `stack_details['Stacks'][0]` that the method reads. -/
structure StackInfo where
  enableTerminationProtection : Bool
  tags : List StackTag
deriving DecidableEq

/-- One entry of `describe_stack_events(...)['StackEvents']`: only its
optional `ResourceStatusReason` field is read. -/
structure StackEvent where
  resourceStatusReason : Option String
deriving DecidableEq

/-- How the `try` body's stack operation finishes: normally, with a
botocore `ClientError` (message string), or with a
`yolo.exceptions.CloudFormationError` raised by the waiter. -/
inductive TryOutcome where
  | ok
  | clientErr (msg : String)
  | cfErr
deriving DecidableEq

/-- How `_do_create_or_update_stack` finishes: a normal return, or a
raised `YoloError` with its message. -/
inductive StackOpResult where
  | ok
  | yoloError (msg : String)
deriving DecidableEq

/-- SDK / wrapper calls the method can perform on the stack. -/
inductive CallAction where
  | createStack
  | updateStack
  | deleteStack
  | recreateStack
  | updateTerminationProtection
deriving DecidableEq

/-- The `for stack_event in stack_events` loop: the reason of the first
event carrying a `ResourceStatusReason`, else `'unknown'`. -/
def possibleCause : List StackEvent → String
  | [] => "unknown"
  | e :: rest =>
    match e.resourceStatusReason with
    | some r => r
    | none => possibleCause rest

/-- The message of the `YoloError` raised for a `CloudFormationError`. -/
def cfErrorMsg (events : List StackEvent) : String :=
  "Infrastructure template failed to deploy. Possible cause: \"" ++ possibleCause events
    ++ "\"\nCheck the CloudFormation dashboard for more details."

/-- The `except` clauses of `_do_create_or_update_stack`: a
`ClientError` containing `No updates are to be performed` is swallowed;
a `ClientError` containing `TerminationProtection is enabled` becomes a
`YoloError` with a fixed message; one containing `ValidationError`, and
any other `ClientError`, becomes `YoloError(err)`; a
`CloudFormationError` becomes a `YoloError` built from `possibleCause`. -/
def handleStackErrors (stackName : String) (o : TryOutcome)
    (events : List StackEvent) : StackOpResult :=
  match o with
  | .ok => .ok
  | .clientErr msg =>
    if containsSub "No updates are to be performed" msg then
      .ok
    else if containsSub "TerminationProtection is enabled" msg then
      .yoloError ("Stack \"" ++ stackName ++ "\" is protected; deletion is not allowed.")
    else if containsSub "ValidationError" msg then
      .yoloError msg
    else
      .yoloError msg
  | .cfErr => .yoloError (cfErrorMsg events)

/-- The message of the `YoloError` raised for a protected stack on
`recreate`. -/
def protectedMsg (stackName : String) : String :=
  "Unable to re-create stack \"" ++ stackName
    ++ "\": Stack is protected and probably for a good reason."

/-- `YoloClient._do_create_or_update_stack` (client.py).  `stackExists`
and `theStack` model `cf.stack_exists(stack_name)`; `opOutcome` is the
outcome of the stack create/update/recreate call performed in the `try`
body; `events` models `describe_stack_events`.  Returns the method's
result together with the list of stack calls performed.  In the
`recreate` branch the protection check runs first: CloudFormation
termination protection, else the `yolo:Protected` tag (which also adds
termination protection); a protected stack raises `YoloError` before
any delete.  `cf.recreate_stack` (cloudformation.py) deletes the stack
and then creates it again. -/
def doCreateOrUpdateStack (stackName : String) (stackExists recreate : Bool)
    (theStack : StackInfo) (opOutcome : TryOutcome) (events : List StackEvent) :
    StackOpResult × List CallAction :=
  if !stackExists then
    (handleStackErrors stackName opOutcome events, [.createStack])
  else if recreate then
    if theStack.enableTerminationProtection then
      (.yoloError (protectedMsg stackName), [])
    else if theStack.tags.contains yoloProtectedTag then
      (.yoloError (protectedMsg stackName), [.updateTerminationProtection])
    else
      (handleStackErrors stackName opOutcome events,
        [.recreateStack, .deleteStack, .createStack])
  else
    (handleStackErrors stackName opOutcome events, [.updateStack])

/-- `is_protected` as computed by the method: termination protection or
the yolo `protected` tag. -/
def isProtectedStack (st : StackInfo) : Bool :=
  st.enableTerminationProtection || st.tags.contains yoloProtectedTag

/-! ### `yolo/yolo_file.py` — `YoloFile` schema validation (C7)

`YoloFile.__init__` calls `self._validate()`, which applies the
voluptuous schema `YOLOFILE_SCHEMA` to the loaded YAML content and
raises on any violation.  We model the YAML content and translate each
(sub)schema to a boolean checker; voluptuous `Required` keys must be
present, `Optional` keys may be absent, and keys outside the schema are
rejected. -/

/-- YAML values as loaded from a yolo.yaml file: the shapes the yolo
schemas inspect (strings, integers, booleans, lists and string-keyed
mappings). -/
inductive Yaml where
  | str (s : String)
  | int (n : Int)
  | bool (b : Bool)
  | list (items : List Yaml)
  | dict (entries : List (String × Yaml))

/-- Look a key up in a mapping. -/
def lookupKey (es : List (String × Yaml)) (k : String) : Option Yaml :=
  (es.find? (fun e => e.fst == k)).map (fun e => e.snd)

/-- `STRING_SCHEMA`: `volup.Any(str, unicode)`. -/
def isStr : Yaml → Bool
  | .str _ => true
  | _ => false

/-- A `bool` value. -/
def isBool : Yaml → Bool
  | .bool _ => true
  | _ => false

/-- An `int` value. -/
def isInt : Yaml → Bool
  | .int _ => true
  | _ => false

/-- `STRING_OR_DICT_SCHEMA`: `volup.Any(str, unicode, dict)`. -/
def isStrOrDict : Yaml → Bool
  | .str _ => true
  | .dict _ => true
  | _ => false

/-- A `volup.Required(k): p` marker: the key must be present and its
value must satisfy `p`. -/
def reqKey (es : List (String × Yaml)) (k : String) (p : Yaml → Bool) : Bool :=
  match lookupKey es k with
  | some v => p v
  | none => false

/-- A `volup.Optional(k): p` marker: if the key is present its value
must satisfy `p`. -/
def optKey (es : List (String × Yaml)) (k : String) (p : Yaml → Bool) : Bool :=
  match lookupKey es k with
  | some v => p v
  | none => true

/-- Voluptuous rejects keys that are not part of a dict schema. -/
def keysAllowed (es : List (String × Yaml)) (ks : List String) : Bool :=
  es.all (fun e => ks.contains e.fst)

/-- `{STRING_SCHEMA: STRING_SCHEMA}`: a mapping whose values are all
strings. -/
def strMapOk : Yaml → Bool
  | .dict es => es.all (fun e => isStr e.snd)
  | _ => false

/-- `[STRING_SCHEMA]` / `[str]`: a list of strings. -/
def strListOk : Yaml → Bool
  | .list items => items.all isStr
  | _ => false

/-- The keys of `ACCOUNT_SCHEMA`. -/
def accountKeys : List String := ["name", "account_number", "default_region"]

/-- `ACCOUNT_SCHEMA`: required string fields `name`, `account_number`
and `default_region`. -/
def checkAccount : Yaml → Bool
  | .dict es =>
    reqKey es "name" isStr && reqKey es "account_number" isStr &&
    reqKey es "default_region" isStr && keysAllowed es accountKeys
  | _ => false

/-- `ACCOUNTS_SCHEMA`: `volup.Schema([ACCOUNT_SCHEMA])`. -/
def checkAccounts : Yaml → Bool
  | .list items => items.all checkAccount
  | _ => false

/-- `ACCOUNT_TEMPLATE_SCHEMA` and `STAGE_TEMPLATE_SCHEMA` (identical
shape): required string `path`, optional string-map `params`. -/
def checkTemplateEntry : Yaml → Bool
  | .dict es =>
    reqKey es "path" isStr && optKey es "params" strMapOk &&
    keysAllowed es ["path", "params"]
  | _ => false

/-- `TEMPLATES_SCHEMA`: optional `account`, required `stage`. -/
def checkTemplates : Yaml → Bool
  | .dict es =>
    optKey es "account" checkTemplateEntry && reqKey es "stage" checkTemplateEntry &&
    keysAllowed es ["account", "stage"]
  | _ => false

/-- One stage configuration in `STAGES_SCHEMA`: required strings
`account` and `region`, optional bool `protected`, optional string-map
`params`. -/
def checkStageCfg : Yaml → Bool
  | .dict es =>
    reqKey es "account" isStr && reqKey es "region" isStr &&
    optKey es "protected" isBool && optKey es "params" strMapOk &&
    keysAllowed es ["account", "region", "protected", "params"]
  | _ => false

/-- `STAGES_SCHEMA`: a mapping from stage names to stage configs. -/
def checkStages : Yaml → Bool
  | .dict es => es.all (fun e => checkStageCfg e.snd)
  | _ => false

/-- One entry of a stage's parameter list in `PARAMETERS_SCHEMA`:
required string `name`, optional string `value`, optional bool
`multiline`. -/
def checkParamEntry : Yaml → Bool
  | .dict es =>
    reqKey es "name" isStr && optKey es "value" isStr &&
    optKey es "multiline" isBool &&
    keysAllowed es ["name", "value", "multiline"]
  | _ => false

/-- The value of `PARAMETERS_SCHEMA`'s required `stages` key: stage name
to list of parameter entries. -/
def checkParamStages : Yaml → Bool
  | .dict es =>
    es.all (fun e =>
      match e.snd with
      | .list items => items.all checkParamEntry
      | _ => false)
  | _ => false

/-- `PARAMETERS_SCHEMA`: required `stages` mapping. -/
def checkParameters : Yaml → Bool
  | .dict es =>
    reqKey es "stages" checkParamStages && keysAllowed es ["stages"]
  | _ => false

/-- `SUPPORTED_RUNTIMES`. -/
def supportedRuntimes : List String := ["python2.7", "python3.6"]

/-- The `VpcConfig` sub-schema of `YOKE_LAMBDA_FN_CFG`. -/
def checkVpcConfig : Yaml → Bool
  | .dict es =>
    reqKey es "SubnetIds" strListOk && reqKey es "SecurityGroupIds" strListOk &&
    keysAllowed es ["SubnetIds", "SecurityGroupIds"]
  | _ => false

/-- The `Environment` sub-schema of `YOKE_LAMBDA_FN_CFG`: a plain
(optional) `Variables` key holding a string map. -/
def checkEnvironment : Yaml → Bool
  | .dict es =>
    optKey es "Variables" strMapOk && keysAllowed es ["Variables"]
  | _ => false

/-- The `TracingConfig` sub-schema of `YOKE_LAMBDA_FN_CFG`: required
`Mode` in `{Active, PassThrough}`. -/
def checkTracingConfig : Yaml → Bool
  | .dict es =>
    reqKey es "Mode" (fun v =>
      match v with
      | .str s => s == "Active" || s == "PassThrough"
      | _ => false) &&
    keysAllowed es ["Mode"]
  | _ => false

/-- `YOKE_LAMBDA_FN_CFG`. -/
def checkLambdaFnCfg : Yaml → Bool
  | .dict es =>
    reqKey es "FunctionName" isStr && reqKey es "Role" isStr &&
    reqKey es "Handler" isStr && optKey es "Description" isStr &&
    optKey es "Timeout" isInt && optKey es "MemorySize" isInt &&
    optKey es "VpcConfig" checkVpcConfig &&
    optKey es "Environment" checkEnvironment &&
    optKey es "Runtime" (fun v =>
      match v with
      | .str s => supportedRuntimes.contains s
      | _ => false) &&
    optKey es "TracingConfig" checkTracingConfig &&
    keysAllowed es ["FunctionName", "Role", "Handler", "Description", "Timeout",
      "MemorySize", "VpcConfig", "Environment", "Runtime", "TracingConfig"]
  | _ => false

/-- One entry of `APIGATEWAY_SCHEMA`'s optional `domains` list. -/
def checkDomain : Yaml → Bool
  | .dict es =>
    optKey es "domain_name" isStrOrDict && optKey es "base_path" isStr &&
    keysAllowed es ["domain_name", "base_path"]
  | _ => false

/-- One entry of `APIGATEWAY_SCHEMA`'s optional `authorizers` list. -/
def checkAuthorizer : Yaml → Bool
  | .dict es =>
    reqKey es "name" isStr &&
    reqKey es "type" (fun v =>
      match v with
      | .str s => s == "TOKEN" || s == "REQUEST" || s == "COGNITO_USER_POOLS"
      | _ => false) &&
    optKey es "providerARNs" strListOk && optKey es "authType" isStr &&
    optKey es "authorizerUri" isStr && optKey es "authorizerCredentials" isStr &&
    optKey es "identitySource" isStr &&
    optKey es "identityValidationExpression" isStr &&
    optKey es "authorizerResultTtlInSeconds" isInt &&
    keysAllowed es ["name", "type", "providerARNs", "authType", "authorizerUri",
      "authorizerCredentials", "identitySource", "identityValidationExpression",
      "authorizerResultTtlInSeconds"]
  | _ => false

/-- `APIGATEWAY_SCHEMA`'s optional `integration` sub-schema. -/
def checkIntegration : Yaml → Bool
  | .dict es =>
    reqKey es "type" isStr && reqKey es "uri" isStr &&
    optKey es "passthroughBehavior" isStr && optKey es "credentials" isStr &&
    keysAllowed es ["type", "uri", "passthroughBehavior", "credentials"]
  | _ => false

/-- `APIGATEWAY_SCHEMA`. -/
def checkApigateway : Yaml → Bool
  | .dict es =>
    reqKey es "rest_api_name" isStr && reqKey es "swagger_template" isStr &&
    optKey es "domains" (fun v =>
      match v with
      | .list items => items.all checkDomain
      | _ => false) &&
    optKey es "authorizers" (fun v =>
      match v with
      | .list items => items.all checkAuthorizer
      | _ => false) &&
    optKey es "integration" checkIntegration &&
    keysAllowed es ["rest_api_name", "swagger_template", "domains", "authorizers",
      "integration"]
  | _ => false

/-- `SERVICE_TYPES`. -/
def serviceTypes : List String := ["s3", "lambda", "lambda-apigateway"]

/-- A service's optional `build` section. -/
def checkBuild : Yaml → Bool
  | .dict es =>
    reqKey es "working_dir" isStr && reqKey es "dist_dir" isStr &&
    optKey es "include" strListOk && optKey es "dependencies" isStr &&
    keysAllowed es ["working_dir", "dist_dir", "include", "dependencies"]
  | _ => false

/-- A service's optional `deploy` section. -/
def checkDeploy : Yaml → Bool
  | .dict es =>
    optKey es "apigateway" checkApigateway &&
    optKey es "lambda_function_configuration" checkLambdaFnCfg &&
    optKey es "parameters" checkParameters &&
    keysAllowed es ["apigateway", "lambda_function_configuration", "parameters"]
  | _ => false

/-- One service record in `SERVICES_SCHEMA`. -/
def checkService : Yaml → Bool
  | .dict es =>
    reqKey es "type" (fun v =>
      match v with
      | .str s => serviceTypes.contains s
      | _ => false) &&
    optKey es "bucket_name" isStr && optKey es "build" checkBuild &&
    optKey es "deploy" checkDeploy &&
    keysAllowed es ["type", "bucket_name", "build", "deploy"]
  | _ => false

/-- `SERVICES_SCHEMA`: many services keyed by name. -/
def checkServices : Yaml → Bool
  | .dict es => es.all (fun e => checkService e.snd)
  | _ => false

/-- The required top-level keys of `YOLOFILE_SCHEMA`. -/
def requiredTopKeys : List String :=
  ["name", "accounts", "templates", "stages", "services"]

/-- `YOLOFILE_SCHEMA`, applied by `YoloFile._validate` on construction:
all five top-level keys are `volup.Required`. -/
def checkYoloFile : Yaml → Bool
  | .dict es =>
    reqKey es "name" isStr &&
    reqKey es "accounts" checkAccounts &&
    reqKey es "templates" checkTemplates &&
    reqKey es "stages" checkStages &&
    reqKey es "services" checkServices &&
    keysAllowed es requiredTopKeys
  | _ => false

/-! ### `yolo/yolo_file.py` — `YoloFile.normalize_account` (C10) -/

/-- One validated entry of the `accounts` section (three string
fields). -/
structure AcctEntry where
  name : String
  account_number : String
  default_region : String
deriving DecidableEq

/-- The `AWSAccount` namedtuple. -/
structure AWSAccount where
  name : String
  account_number : String
  default_region : String
deriving DecidableEq

/-- `YoloFile.normalize_account`: scan the `accounts` list; on a name
match return the entry's number/region with the given alias; on an
account-number match return the entry's name/region with the given
number; the `for`/`else` raises `YoloError` (modelled as `none`) when no
entry matches. -/
def normalizeAccount : List AcctEntry → String → Option AWSAccount
  | [], _ => none
  | acct :: rest, account =>
    if acct.name == account then
      some { name := account, account_number := acct.account_number,
             default_region := acct.default_region }
    else if acct.account_number == account then
      some { name := acct.name, account_number := account,
             default_region := acct.default_region }
    else
      normalizeAccount rest account

/-- Sample yolo.yaml content satisfying `YOLOFILE_SCHEMA`. -/
def sampleYoloContent : Yaml :=
  Yaml.dict [("name", Yaml.str "lpr"),
    ("accounts", Yaml.list [Yaml.dict [("name", Yaml.str "dev"),
      ("account_number", Yaml.str "123456789012"),
      ("default_region", Yaml.str "us-east-1")]]),
    ("templates", Yaml.dict [("stage", Yaml.dict [("path", Yaml.str "stage.yaml")])]),
    ("stages", Yaml.dict []),
    ("services", Yaml.dict [])]

/-! ### `lprApp/yolo_object_detection/yolo_video.py` — `process_video` (C5, C8)

Frames are modelled as pixel maps over integer coordinates; the numpy
slice assignment `frame[y:(y+h), x:(x+w)] = blurred[y:(y+h), x:(x+w)]`
is modelled as overwriting the rectangular region; `cv2.GaussianBlur`
with the `(25, 25)` kernel is vendor code and is modelled as an
arbitrary whole-frame transform `blur`; `cv2.dnn.NMSBoxes` is vendor
code, so the list of boxes it keeps is a parameter.  Detection
arithmetic (floats) is modelled over `ℚ`. -/

/-- A video frame: pixel values over integer row/column coordinates. -/
def Frame : Type := Int → Int → Int

/-- A bounding box `[x, y, w, h]` as appended to `boxes`. -/
structure Box where
  x : Int
  y : Int
  w : Int
  h : Int
deriving DecidableEq

/-- The default box used for out-of-range list indexing in statements. -/
def defaultBox : Box := { x := 0, y := 0, w := 0, h := 0 }

/-- Row `r`, column `c` lies in the region `frame[y:(y+h), x:(x+w)]`. -/
def inBox (b : Box) (r c : Int) : Bool :=
  decide (b.y ≤ r) && decide (r < b.y + b.h) &&
  decide (b.x ≤ c) && decide (c < b.x + b.w)

/-- Slice assignment: write `src`'s pixels inside the box over `dst`. -/
def writeRegion (b : Box) (src dst : Frame) : Frame :=
  fun r c => if inBox b r c then src r c else dst r c

/-- The `for i in idxs.flatten()` loop: for every kept box in order,
`blurred = cv2.GaussianBlur(frame, (25,25), 0)` on the current frame and
`frame[y:(y+h), x:(x+w)] = blurred[y:(y+h), x:(x+w)]`. -/
def blurBoxes (blur : Frame → Frame) : List Box → Frame → Frame
  | [], f => f
  | b :: bs, f => blurBoxes blur bs (writeRegion b (blur f) f)

/-- One YOLO detection row: the normalised box centre/size
`detection[0:4]` and the class scores `detection[5:]`. -/
structure Detection where
  cx : ℚ
  cy : ℚ
  bw : ℚ
  bh : ℚ
  scores : List ℚ
deriving DecidableEq

/-- `np.argmax` inner loop: first index of a strictly larger value wins. -/
def argmaxAux : List ℚ → Nat → ℚ → Nat → Nat
  | [], _, _, best => best
  | v :: rest, i, bestV, best =>
    if bestV < v then argmaxAux rest (i + 1) v i
    else argmaxAux rest (i + 1) bestV best

/-- `classID = np.argmax(scores)` (first maximal index; 0 on empty). -/
def argmax : List ℚ → Nat
  | [] => 0
  | v :: rest => argmaxAux rest 1 v 0

/-- `confidence = scores[classID]`. -/
def confidenceOf (d : Detection) : ℚ :=
  d.scores.getD (argmax d.scores) 0

/-- The confidence threshold `confid = float(0.05)`. -/
def confid : ℚ := 5 / 100

/-- `if confidence > confid`: the detection yields a candidate box. -/
def keepDetection (d : Detection) : Bool :=
  decide (confid < confidenceOf d)

/-- `int()` / `astype("int")` truncation toward zero on a rational. -/
def truncQ (q : ℚ) : Int :=
  if 0 ≤ q then ⌊q⌋ else ⌈q⌉

/-- The box built from a kept detection: scale by `[W, H, W, H]`,
truncate, then `x = int(centerX - (width / 2))` and
`y = int(centerY - (height / 2))`. -/
def mkBox (W H : ℚ) (d : Detection) : Box :=
  let cX : Int := truncQ (d.cx * W)
  let cY : Int := truncQ (d.cy * H)
  let bw : Int := truncQ (d.bw * W)
  let bh : Int := truncQ (d.bh * H)
  { x := truncQ ((cX : ℚ) - (bw : ℚ) / 2),
    y := truncQ ((cY : ℚ) - (bh : ℚ) / 2),
    w := bw, h := bh }

/-- The candidate boxes handed to non-maxima suppression: one per
detection whose maximal class score exceeds the threshold. -/
def candidateBoxes (W H : ℚ) (dets : List Detection) : List Box :=
  (dets.filter keepDetection).map (mkBox W H)

/-- A stored file: the name passed to Django's `FieldFile.save` plus
its frame content. -/
inductive FileVal where
  | file (name : String) (frames : List Frame)

/-- The `Video` model row (models.py): `upload = models.FileField(...)`
and the nullable `processed_video = models.FileField(null=True)`. -/
structure VideoRec where
  upload : FileVal
  processed_video : Option FileVal

/-- `Video.objects.create(upload=file)` as performed by
`video_upload_view`: `processed_video` is not assigned and stays null. -/
def createVideo (f : FileVal) : VideoRec :=
  { upload := f, processed_video := none }

/-- `process_video(video)`: every grabbed frame has its kept boxes
blurred and is written to the output video; at the end
`video.upload.save('new', django_file)` stores the processed content
back into the `upload` field.  No other field of the row is written. -/
def processVideoModel (blur : Frame → Frame) (nms : Frame → List Box)
    (inputFrames : List Frame) (v : VideoRec) : VideoRec :=
  { v with
    upload := FileVal.file "new"
      (inputFrames.map (fun fr => blurBoxes blur (nms fr) fr)) }

/-! ### `lprApp/views.py` — the `download` view (C6, C9)

The Django ORM state is a list of `ImageSession` rows; `filter(...)[0]`
is the first row satisfying the filter, and an `IndexError` on an empty
queryset is caught by the `try/except` (POST branch only) and turned
into `Http404`. -/

/-- An `Image` row: only its `upload.url` is read by `download`. -/
structure ImageRec where
  uploadUrl : String
deriving DecidableEq

/-- An `ImageSession` row: primary key, `processed` flag and its
many-to-many `images`. -/
structure SessionRec where
  sid : Nat
  processed : Bool
  images : List ImageRec
deriving DecidableEq

/-- The session table. -/
structure Db where
  sessions : List SessionRec
deriving DecidableEq

/-- The request method. -/
inductive HttpMethod where
  | post
  | get
deriving DecidableEq

/-- What `download` can produce: an `HttpResponse` carrying a zip
archive (content type and the list of `(archive path, source path)`
entries written by `zip_file.write`), an `Http404`, or an uncaught
exception (GET branch with no matching session). -/
inductive DownloadResp where
  | zipResponse (contentType : String) (entries : List (String × String))
  | http404
  | serverError
deriving DecidableEq

/-- `os.path.split(image.upload.url)[1]`: the part after the last
slash. -/
def fileNameOf (url : String) : String :=
  (url.splitOn "/").getLastD ""

/-- `session.processed = True; session.save()`: persist by primary
key. -/
def markProcessed (db : Db) (sid : Nat) : Db :=
  { sessions := db.sessions.map
      (fun t => if t.sid == sid then { t with processed := true } else t) }

/-- The zip entries written by the loop: each image goes under the
`FILE/` directory with its file name, read from `BASE_DIR + url`. -/
def zipEntries (baseDir : String) (images : List ImageRec) : List (String × String) :=
  images.map (fun img =>
    ("FILE/" ++ fileNameOf img.uploadUrl, baseDir ++ img.uploadUrl))

/-- The `download(request, id)` view.  POST: take the first session
with `processed=False` and the given id (any failure, in particular the
empty-queryset `IndexError`, raises `Http404`), build the zip, mark the
session processed, return the zip response.  GET: same, but the filter
is only on the id and an empty queryset raises an uncaught
`IndexError`. -/
def download (baseDir : String) (m : HttpMethod) (sid : Nat) (db : Db) :
    DownloadResp × Db :=
  match m with
  | .post =>
    match (db.sessions.filter (fun s => !s.processed && s.sid == sid)).head? with
    | none => (.http404, db)
    | some s =>
      (.zipResponse "application/x-zip-compressed" (zipEntries baseDir s.images),
        markProcessed db s.sid)
  | .get =>
    match (db.sessions.filter (fun s => s.sid == sid)).head? with
    | none => (.serverError, db)
    | some s =>
      (.zipResponse "application/x-zip-compressed" (zipEntries baseDir s.images),
        markProcessed db s.sid)

/-- Sample values for the C5 witness. -/
def sampleBlur : Frame → Frame := fun f r c => f r c + 1

/-- A constant zero frame. -/
def sampleFrame : Frame := fun _ _ => 0

/-- A 2x2 box at the origin. -/
def sampleBox : Box := { x := 0, y := 0, w := 2, h := 2 }

/-- A detection with a single class score of 0.1. -/
def sampleDetection : Detection :=
  { cx := 0, cy := 0, bw := 0, bh := 0, scores := [1 / 10] }

/-- Sample image row for the C6/C9 witnesses. -/
def sampleImage : ImageRec := { uploadUrl := "/media/images/plate.png" }

/-- Sample unprocessed session with primary key 7. -/
def sampleSession : SessionRec :=
  { sid := 7, processed := false, images := [sampleImage] }

/-- Sample one-session database. -/
def sampleDb : Db := { sessions := [sampleSession] }

/-! ### General lemmas and waiter lemmas -/

/-- If the loop breaks out successfully, some poll within the remaining
fuel was a success poll and every earlier poll was an in-progress
status. -/
theorem waitGo_success_poll (wt : WaiterType) (polls : Nat → PollResult) :
    ∀ fuel i, waitGo wt polls fuel i = WaitOutcome.success →
      ∃ k, k < fuel ∧ successPoll wt (polls (i + k)) = true ∧
        ∀ j, j < k → isProgressPoll wt (polls (i + j)) = true := by
  intro fuel
  induction fuel with
  | zero =>
    intro i h
    simp [waitGo] at h
  | succ n ih =>
    intro i h
    simp only [waitGo] at h
    cases hp : polls i with
    | clientError msg =>
      rw [hp] at h
      dsimp only at h
      by_cases hc : (containsSub "ValidationError" msg && containsSub "does not exist" msg
          && (wt == WaiterType.stackDeleteComplete)) = true
      · refine ⟨0, Nat.succ_pos n, ?_, fun j hj => absurd hj (Nat.not_lt_zero j)⟩
        simpa [successPoll, hp] using hc
      · rw [if_neg (by simp [hc])] at h
        exact absurd h (by simp)
    | status s =>
      rw [hp] at h
      dsimp only at h
      by_cases ht : (s == targetStatus wt) = true
      · refine ⟨0, Nat.succ_pos n, ?_, fun j hj => absurd hj (Nat.not_lt_zero j)⟩
        simpa [successPoll, hp] using ht
      · rw [if_neg (by simp [ht])] at h
        by_cases hip : containsSub "IN_PROGRESS" s = true
        · rw [if_pos hip] at h
          obtain ⟨k, hk, hs, hj⟩ := ih (i + 1) h
          refine ⟨k + 1, by omega, ?_, ?_⟩
          · rw [show i + (k + 1) = (i + 1) + k by omega]
            exact hs
          · intro j hjk
            cases j with
            | zero =>
              simp only [Nat.add_zero]
              simp [isProgressPoll, hp, Bool.not_eq_true] at ht ⊢
              exact ⟨by simpa using ht, hip⟩
            | succ j =>
              rw [show i + (j + 1) = (i + 1) + j by omega]
              exact hj j (by omega)
        · rw [if_neg hip] at h
          exact absurd h (by simp)

/-- If every poll before index `k` is an in-progress status and poll `k`
is a non-target status not containing `IN_PROGRESS`, the loop raises
`CloudFormationError` with that status. -/
theorem waitGo_cfError (wt : WaiterType) (polls : Nat → PollResult) :
    ∀ k fuel i s, k < fuel →
      (∀ j, j < k → isProgressPoll wt (polls (i + j)) = true) →
      polls (i + k) = PollResult.status s →
      (s == targetStatus wt) = false →
      containsSub "IN_PROGRESS" s = false →
      waitGo wt polls fuel i = WaitOutcome.cfError s := by
  intro k
  induction k with
  | zero =>
    intro fuel i s hf _ hpoll ht hip
    obtain ⟨n, rfl⟩ : ∃ n, fuel = n + 1 := ⟨fuel - 1, by omega⟩
    rw [Nat.add_zero] at hpoll
    simp only [waitGo]
    rw [hpoll]
    dsimp only
    rw [if_neg (by simp [ht]), if_neg (by simp [hip])]
  | succ k ih =>
    intro fuel i s hf hprog hpoll ht hip
    obtain ⟨n, rfl⟩ : ∃ n, fuel = n + 1 := ⟨fuel - 1, by omega⟩
    have h0 := hprog 0 (Nat.succ_pos k)
    rw [Nat.add_zero] at h0
    cases hp : polls i with
    | clientError msg =>
      rw [hp] at h0
      simp [isProgressPoll] at h0
    | status s0 =>
      rw [hp] at h0
      simp only [isProgressPoll, Bool.and_eq_true, bne_iff_ne, ne_eq] at h0
      obtain ⟨hne, hin⟩ := h0
      simp only [waitGo]
      rw [hp]
      dsimp only
      rw [if_neg (by simp [hne]), if_pos hin]
      refine ih n (i + 1) s (by omega) ?_ ?_ ht hip
      · intro j hj
        have := hprog (j + 1) (by omega)
        rwa [show i + (j + 1) = (i + 1) + j by omega] at this
      · rwa [show (i + 1) + k = i + (k + 1) by omega]

/-- **C1.** For every waiter type, `wait` returns normally only when a
poll is the type's target status or — for the delete type only — a
`ClientError` containing both `ValidationError` and `does not exist`
(with all earlier polls in-progress statuses); and whenever a poll is a
non-target status not containing `IN_PROGRESS` (all earlier polls being
in-progress), `wait` raises `CloudFormationError` with that status. -/
theorem C1_waiter_terminal_states (wt : WaiterType) (polls : Nat → PollResult) :
    (wait wt polls = WaitOutcome.success →
      ∃ k, k < MAX_TRIES ∧ successPoll wt (polls k) = true ∧
        ∀ j, j < k → isProgressPoll wt (polls j) = true) ∧
    (∀ k s, k < MAX_TRIES →
      (∀ j, j < k → isProgressPoll wt (polls j) = true) →
      polls k = PollResult.status s →
      s ≠ targetStatus wt →
      containsSub "IN_PROGRESS" s = false →
      wait wt polls = WaitOutcome.cfError s) := by
  constructor
  · intro h
    obtain ⟨k, h1, h2, h3⟩ := waitGo_success_poll wt polls MAX_TRIES 0 h
    exact ⟨k, h1, by simpa using h2, fun j hj => by simpa using h3 j hj⟩
  · intro k s hk hprog hpoll hne hip
    exact waitGo_cfError wt polls k MAX_TRIES 0 s hk
      (fun j hj => by simpa using hprog j hj) (by simpa using hpoll)
      (beq_eq_false_iff_ne.mpr hne) hip

/-- Witness for C1: a single `ROLLBACK_COMPLETE` poll makes the create
waiter raise `CloudFormationError`. -/
theorem C1_waiter_terminal_states_witness :
    wait WaiterType.stackCreateComplete (fun _ => PollResult.status "ROLLBACK_COMPLETE")
      = WaitOutcome.cfError "ROLLBACK_COMPLETE" :=
  (C1_waiter_terminal_states WaiterType.stackCreateComplete
      (fun _ => PollResult.status "ROLLBACK_COMPLETE")).2 0 "ROLLBACK_COMPLETE"
    (by decide) (fun j hj => absurd hj (Nat.not_lt_zero j)) rfl (by decide) (by decide)

/-- Only the first `MAX_TRIES` polls can be consulted: agreement of two
poll sequences below `MAX_TRIES` makes `wait` agree. -/
theorem waitGo_polls_congr (wt : WaiterType) (polls polls2 : Nat → PollResult) :
    ∀ fuel i, (∀ j, i ≤ j → j < i + fuel → polls j = polls2 j) →
      waitGo wt polls fuel i = waitGo wt polls2 fuel i := by
  intro fuel
  induction fuel with
  | zero => intro i _; rfl
  | succ n ih =>
    intro i hagree
    have h0 : polls i = polls2 i := hagree i (Nat.le_refl i) (by omega)
    have hrec : waitGo wt polls n (i + 1) = waitGo wt polls2 n (i + 1) :=
      ih (i + 1) (fun j h1 h2 => hagree j (by omega) (by omega))
    simp only [waitGo, h0]
    cases polls2 i with
    | clientError msg => rfl
    | status s =>
      dsimp only
      rw [hrec]

/-- If every one of the first `fuel` polls is an in-progress status, the
loop exhausts its fuel and raises `RuntimeError`. -/
theorem waitGo_timeout (wt : WaiterType) (polls : Nat → PollResult) :
    ∀ fuel i, (∀ j, j < fuel → isProgressPoll wt (polls (i + j)) = true) →
      waitGo wt polls fuel i = WaitOutcome.timeout := by
  intro fuel
  induction fuel with
  | zero => intro i _; rfl
  | succ n ih =>
    intro i hprog
    have h0 := hprog 0 (Nat.succ_pos n)
    rw [Nat.add_zero] at h0
    cases hp : polls i with
    | clientError msg =>
      rw [hp] at h0
      simp [isProgressPoll] at h0
    | status s =>
      rw [hp] at h0
      simp only [isProgressPoll, Bool.and_eq_true, bne_iff_ne, ne_eq] at h0
      obtain ⟨hne, hin⟩ := h0
      simp only [waitGo]
      rw [hp]
      dsimp only
      rw [if_neg (by simp [hne]), if_pos hin]
      refine ih (i + 1) ?_
      intro j hj
      have := hprog (j + 1) (by omega)
      rwa [show i + (j + 1) = (i + 1) + j by omega] at this

/-- **C2.** `wait` consults at most `MAX_TRIES = 120` polls (two poll
sequences agreeing on the first 120 polls give the same outcome), and if
every one of the first 120 polls is still in progress it raises
`RuntimeError` (`timeout`), so the polling loop always terminates. -/
theorem C2_waiter_bounded (wt : WaiterType) (polls polls2 : Nat → PollResult) :
    ((∀ j, j < MAX_TRIES → polls j = polls2 j) → wait wt polls = wait wt polls2) ∧
    ((∀ j, j < MAX_TRIES → isProgressPoll wt (polls j) = true) →
      wait wt polls = WaitOutcome.timeout) := by
  constructor
  · intro hagree
    exact waitGo_polls_congr wt polls polls2 MAX_TRIES 0
      (fun j h1 h2 => hagree j (by omega))
  · intro hprog
    exact waitGo_timeout wt polls MAX_TRIES 0 (fun j hj => by simpa using hprog j hj)

/-- Witness for C2: polls that always report `CREATE_IN_PROGRESS` make
the create waiter time out. -/
theorem C2_waiter_bounded_witness :
    wait WaiterType.stackCreateComplete (fun _ => PollResult.status "CREATE_IN_PROGRESS")
        = wait WaiterType.stackCreateComplete (fun _ => PollResult.status "CREATE_IN_PROGRESS") ∧
      wait WaiterType.stackCreateComplete (fun _ => PollResult.status "CREATE_IN_PROGRESS")
        = WaitOutcome.timeout :=
  ⟨(C2_waiter_bounded WaiterType.stackCreateComplete
      (fun _ => PollResult.status "CREATE_IN_PROGRESS")
      (fun _ => PollResult.status "CREATE_IN_PROGRESS")).1 (fun j _ => rfl),
    (C2_waiter_bounded WaiterType.stackCreateComplete
      (fun _ => PollResult.status "CREATE_IN_PROGRESS")
      (fun _ => PollResult.status "CREATE_IN_PROGRESS")).2 (fun j _ => by decide)⟩

/-- `p` occurs at the start of `p ++ b`. -/
theorem isSubAt_append (p b : List Char) : isSubAt p (p ++ b) = true := by
  induction p with
  | nil => rfl
  | cons a as ih => simp [isSubAt, ih]

/-- A pattern occurring at the start occurs somewhere. -/
theorem hasSub_of_isSubAt (p l : List Char) (h : isSubAt p l = true) :
    hasSub p l = true := by
  cases l with
  | nil => simpa [hasSub] using h
  | cons c t => simp [hasSub, h]

/-- A pattern occurs in any list that embeds it contiguously. -/
theorem hasSub_append (p a b : List Char) : hasSub p (a ++ p ++ b) = true := by
  induction a with
  | nil => exact hasSub_of_isSubAt p (p ++ b) (isSubAt_append p b)
  | cons c t ih =>
    have h : hasSub p (t ++ (p ++ b)) = true := by
      simpa [List.append_assoc] using ih
    simp [hasSub, h]

/-- String-level version of `hasSub_append`. -/
theorem containsSub_append (p a b : String) :
    containsSub p (a ++ p ++ b) = true := by
  simp only [containsSub, String.data_append]
  exact hasSub_append p.data a.data b.data

/-- **C3.** A `ClientError` from the stack create/update/recreate call
is swallowed (normal return) exactly when its message contains
`No updates are to be performed`; any other `ClientError` message —
containing `TerminationProtection is enabled`, `ValidationError`, or
neither — yields a `YoloError`; a `CloudFormationError` from the waiter
is re-raised as a `YoloError` whose message contains the possible cause,
which is the reason of the first stack event carrying a
`ResourceStatusReason`; and whenever the `try` body reaches its
`except` clauses (i.e. outside the protected-recreate early raise), the
method's result is `handleStackErrors` applied to the operation's
outcome. -/
theorem C3_stack_error_handling (stackName msg : String) (events : List StackEvent)
    (stackExists recreate : Bool) (st : StackInfo) (o : TryOutcome) :
    (handleStackErrors stackName (TryOutcome.clientErr msg) events = StackOpResult.ok ↔
      containsSub "No updates are to be performed" msg = true) ∧
    (containsSub "No updates are to be performed" msg = false →
      ∃ emsg, handleStackErrors stackName (TryOutcome.clientErr msg) events
        = StackOpResult.yoloError emsg) ∧
    (∃ emsg, handleStackErrors stackName TryOutcome.cfErr events
        = StackOpResult.yoloError emsg ∧
      containsSub (possibleCause events) emsg = true) ∧
    (∀ pre e rest r, (∀ x ∈ pre, x.resourceStatusReason = none) →
      e.resourceStatusReason = some r →
      possibleCause (pre ++ e :: rest) = r) ∧
    (¬(stackExists = true ∧ recreate = true ∧ isProtectedStack st = true) →
      (doCreateOrUpdateStack stackName stackExists recreate st o events).1
        = handleStackErrors stackName o events) := by
  refine ⟨?_, ?_, ?_, ?_, ?_⟩
  · constructor
    · intro h
      by_cases hc : containsSub "No updates are to be performed" msg = true
      · exact hc
      · exfalso
        unfold handleStackErrors at h
        dsimp only at h
        rw [if_neg (by simp [hc])] at h
        split at h <;> simp at h
    · intro hc
      unfold handleStackErrors
      dsimp only
      rw [if_pos hc]
  · intro hc
    unfold handleStackErrors
    dsimp only
    rw [if_neg (by simp [hc])]
    split
    · exact ⟨_, rfl⟩
    · split
      · exact ⟨_, rfl⟩
      · exact ⟨_, rfl⟩
  · exact ⟨cfErrorMsg events, rfl,
      containsSub_append (possibleCause events)
        "Infrastructure template failed to deploy. Possible cause: \""
        "\"\nCheck the CloudFormation dashboard for more details."⟩
  · intro pre e rest r hpre hr
    induction pre with
    | nil => simp [possibleCause, hr]
    | cons x xs ih =>
      have hx : x.resourceStatusReason = none := hpre x (List.mem_cons_self x xs)
      simpa [possibleCause, hx] using ih (fun y hy => hpre y (List.mem_cons_of_mem x hy))
  · intro hnp
    cases stackExists with
    | false => simp [doCreateOrUpdateStack]
    | true =>
      cases recreate with
      | false => simp [doCreateOrUpdateStack]
      | true =>
        have h1 : st.enableTerminationProtection = false := by
          rcases Bool.eq_false_or_eq_true st.enableTerminationProtection with h | h
          · exact absurd ⟨rfl, rfl, by simp [isProtectedStack, h]⟩ hnp
          · exact h
        have h2 : yoloProtectedTag ∉ st.tags := by
          intro hmem
          refine hnp ⟨rfl, rfl, ?_⟩
          simp only [isProtectedStack, Bool.or_eq_true]
          refine Or.inr ?_
          simpa using hmem
        simp [doCreateOrUpdateStack, h1, h2]

/-- Witness for C3 at concrete inputs. -/
theorem C3_stack_error_handling_witness :
    (∃ emsg, handleStackErrors "app" (TryOutcome.clientErr "boom")
        [{ resourceStatusReason := some "bad resource" }] = StackOpResult.yoloError emsg) ∧
      possibleCause ([] ++ { resourceStatusReason := some "bad resource" } :: []) = "bad resource" ∧
      (doCreateOrUpdateStack "app" false false { enableTerminationProtection := false, tags := [] }
          TryOutcome.ok [{ resourceStatusReason := some "bad resource" }]).1
        = handleStackErrors "app" TryOutcome.ok
            [{ resourceStatusReason := some "bad resource" }] :=
  ⟨(C3_stack_error_handling "app" "boom" [{ resourceStatusReason := some "bad resource" }]
      false false { enableTerminationProtection := false, tags := [] } TryOutcome.ok).2.1
        (by decide),
    (C3_stack_error_handling "app" "boom" [{ resourceStatusReason := some "bad resource" }]
      false false { enableTerminationProtection := false, tags := [] } TryOutcome.ok).2.2.2.1
        [] { resourceStatusReason := some "bad resource" } [] "bad resource"
        (fun x hx => absurd hx (List.not_mem_nil x)) rfl,
    (C3_stack_error_handling "app" "boom" [{ resourceStatusReason := some "bad resource" }]
      false false { enableTerminationProtection := false, tags := [] } TryOutcome.ok).2.2.2.2
        (by simp)⟩

/-- **C4.** With `recreate=True` on an existing stack, a protected stack
(termination protection or the yolo `protected` tag) makes the method
raise `YoloError` without performing any `delete_stack` or
`recreate_stack` call, and `recreate_stack` is performed exactly when
the stack is unprotected. -/
theorem C4_recreate_protection (stackName : String) (st : StackInfo)
    (o : TryOutcome) (events : List StackEvent) :
    (isProtectedStack st = true →
      (doCreateOrUpdateStack stackName true true st o events).1
          = StackOpResult.yoloError (protectedMsg stackName) ∧
        (doCreateOrUpdateStack stackName true true st o events).2.contains
          CallAction.deleteStack = false ∧
        (doCreateOrUpdateStack stackName true true st o events).2.contains
          CallAction.recreateStack = false) ∧
    ((doCreateOrUpdateStack stackName true true st o events).2.contains
        CallAction.recreateStack = true ↔
      isProtectedStack st = false) := by
  rcases Bool.eq_false_or_eq_true st.enableTerminationProtection with h1 | h1 <;>
    by_cases h2 : yoloProtectedTag ∈ st.tags <;>
    simp [doCreateOrUpdateStack, isProtectedStack, h1, h2]

/-- Witness for C4: a stack with termination protection enabled. -/
theorem C4_recreate_protection_witness :
    (doCreateOrUpdateStack "app" true true
        { enableTerminationProtection := true, tags := [] } TryOutcome.ok []).1
        = StackOpResult.yoloError (protectedMsg "app") ∧
      (doCreateOrUpdateStack "app" true true
        { enableTerminationProtection := true, tags := [] } TryOutcome.ok []).2.contains
          CallAction.deleteStack = false ∧
      (doCreateOrUpdateStack "app" true true
        { enableTerminationProtection := true, tags := [] } TryOutcome.ok []).2.contains
          CallAction.recreateStack = false :=
  (C4_recreate_protection "app" { enableTerminationProtection := true, tags := [] }
    TryOutcome.ok []).1 rfl

/-- A satisfied `Required` key is present with a satisfying value. -/
theorem reqKey_some (es : List (String × Yaml)) (k : String) (p : Yaml → Bool)
    (h : reqKey es k p = true) : ∃ v, lookupKey es k = some v ∧ p v = true := by
  unfold reqKey at h
  cases hl : lookupKey es k with
  | none =>
    rw [hl] at h
    dsimp only at h
    exact absurd h (by simp)
  | some v =>
    rw [hl] at h
    dsimp only at h
    exact ⟨v, rfl, h⟩

/-- **C7.** Content accepted by `YOLOFILE_SCHEMA` is a mapping holding
the five required top-level keys, and its `accounts` value is a list of
records each holding `name`, `account_number` and `default_region`;
content that is a mapping missing a required top-level key is
rejected (so `YoloFile.__init__` raises on it). -/
theorem C7_yolofile_required_keys (c : Yaml) :
    (checkYoloFile c = true →
      ∃ es, c = Yaml.dict es ∧
        (∀ k ∈ requiredTopKeys, (lookupKey es k).isSome = true) ∧
        ∃ accs, lookupKey es "accounts" = some (Yaml.list accs) ∧
          ∀ a ∈ accs, ∃ aes, a = Yaml.dict aes ∧
            ∀ k ∈ accountKeys, (lookupKey aes k).isSome = true) ∧
    (∀ es k, c = Yaml.dict es → k ∈ requiredTopKeys → lookupKey es k = none →
      checkYoloFile c = false) := by
  constructor
  · intro h
    cases c with
    | str s => simp [checkYoloFile] at h
    | int n => simp [checkYoloFile] at h
    | bool b => simp [checkYoloFile] at h
    | list items => simp [checkYoloFile] at h
    | dict es =>
      simp only [checkYoloFile, Bool.and_eq_true] at h
      obtain ⟨⟨⟨⟨⟨h1, h2⟩, h3⟩, h4⟩, h5⟩, h6⟩ := h
      refine ⟨es, rfl, ?_, ?_⟩
      · intro k hk
        simp only [requiredTopKeys, List.mem_cons, List.not_mem_nil, or_false] at hk
        rcases hk with rfl | rfl | rfl | rfl | rfl
        · obtain ⟨v, hv, _⟩ := reqKey_some es "name" isStr h1
          simp [hv]
        · obtain ⟨v, hv, _⟩ := reqKey_some es "accounts" checkAccounts h2
          simp [hv]
        · obtain ⟨v, hv, _⟩ := reqKey_some es "templates" checkTemplates h3
          simp [hv]
        · obtain ⟨v, hv, _⟩ := reqKey_some es "stages" checkStages h4
          simp [hv]
        · obtain ⟨v, hv, _⟩ := reqKey_some es "services" checkServices h5
          simp [hv]
      · obtain ⟨v, hv, hacc⟩ := reqKey_some es "accounts" checkAccounts h2
        cases v with
        | str s => simp [checkAccounts] at hacc
        | int n => simp [checkAccounts] at hacc
        | bool b => simp [checkAccounts] at hacc
        | dict des => simp [checkAccounts] at hacc
        | list accs =>
          refine ⟨accs, hv, ?_⟩
          intro a ha
          have hA : checkAccount a = true := by
            simp only [checkAccounts, List.all_eq_true] at hacc
            exact hacc a ha
          cases a with
          | str s => simp [checkAccount] at hA
          | int n => simp [checkAccount] at hA
          | bool b => simp [checkAccount] at hA
          | list items => simp [checkAccount] at hA
          | dict aes =>
            simp only [checkAccount, Bool.and_eq_true] at hA
            obtain ⟨⟨⟨g1, g2⟩, g3⟩, g4⟩ := hA
            refine ⟨aes, rfl, ?_⟩
            intro k hk
            simp only [accountKeys, List.mem_cons, List.not_mem_nil, or_false] at hk
            rcases hk with rfl | rfl | rfl
            · obtain ⟨v2, hv2, _⟩ := reqKey_some aes "name" isStr g1
              simp [hv2]
            · obtain ⟨v2, hv2, _⟩ := reqKey_some aes "account_number" isStr g2
              simp [hv2]
            · obtain ⟨v2, hv2, _⟩ := reqKey_some aes "default_region" isStr g3
              simp [hv2]
  · intro es k hc hk hnone
    subst hc
    simp only [requiredTopKeys, List.mem_cons, List.not_mem_nil, or_false] at hk
    rcases hk with rfl | rfl | rfl | rfl | rfl <;>
      simp [checkYoloFile, reqKey, hnone]

/-- Witness for C7: a minimal valid yolo.yaml is accepted with all
required keys present, and an empty mapping (missing `name`) is
rejected. -/
theorem C7_yolofile_required_keys_witness :
    (∃ es, sampleYoloContent = Yaml.dict es ∧
        (∀ k ∈ requiredTopKeys, (lookupKey es k).isSome = true) ∧
        ∃ accs, lookupKey es "accounts" = some (Yaml.list accs) ∧
          ∀ a ∈ accs, ∃ aes, a = Yaml.dict aes ∧
            ∀ k ∈ accountKeys, (lookupKey aes k).isSome = true) ∧
      checkYoloFile (Yaml.dict []) = false :=
  ⟨(C7_yolofile_required_keys sampleYoloContent).1 rfl,
    (C7_yolofile_required_keys (Yaml.dict [])).2 [] "name" rfl
      (by simp [requiredTopKeys]) rfl⟩

/-- `List.find?` on a cons whose head satisfies the predicate. -/
theorem find?_cons_pos {α : Type} (p : α → Bool) (a : α) (l : List α)
    (h : p a = true) : List.find? p (a :: l) = some a := by
  simp [List.find?, h]

/-- `List.find?` on a cons whose head fails the predicate. -/
theorem find?_cons_neg {α : Type} (p : α → Bool) (a : α) (l : List α)
    (h : p a = false) : List.find? p (a :: l) = List.find? p l := by
  simp [List.find?, h]

/-- **C10.** `normalize_account` returns the `AWSAccount` built from the
first entry whose name or account number equals the input, and raises
`YoloError` (modelled `none`) if and only if no entry matches. -/
theorem C10_normalize_account (accounts : List AcctEntry) (account : String) :
    (∀ e, accounts.find? (fun a => a.name == account || a.account_number == account)
        = some e →
      normalizeAccount accounts account
        = some { name := e.name, account_number := e.account_number,
                 default_region := e.default_region }) ∧
    (normalizeAccount accounts account = none ↔
      accounts.find? (fun a => a.name == account || a.account_number == account)
        = none) := by
  induction accounts with
  | nil =>
    exact ⟨fun e h => by simp [List.find?] at h, by simp [normalizeAccount, List.find?]⟩
  | cons acct rest ih =>
    by_cases h1 : (acct.name == account) = true
    · have hname : acct.name = account := eq_of_beq h1
      have hpred : (acct.name == account || acct.account_number == account) = true := by
        simp [h1]
      constructor
      · intro e he
        rw [find?_cons_pos (fun a => a.name == account || a.account_number == account)
          acct rest hpred] at he
        injection he with he
        subst he
        simp [normalizeAccount, h1, hname]
      · rw [find?_cons_pos (fun a => a.name == account || a.account_number == account)
          acct rest hpred]
        simp [normalizeAccount, h1]
    · by_cases h2 : (acct.account_number == account) = true
      · have hnum : acct.account_number = account := eq_of_beq h2
        have hpred : (acct.name == account || acct.account_number == account) = true := by
          simp [h2]
        constructor
        · intro e he
          rw [find?_cons_pos (fun a => a.name == account || a.account_number == account)
            acct rest hpred] at he
          injection he with he
          subst he
          simp [normalizeAccount, h1, h2, hnum]
        · rw [find?_cons_pos (fun a => a.name == account || a.account_number == account)
            acct rest hpred]
          simp [normalizeAccount, h1, h2]
      · have hpred : (acct.name == account || acct.account_number == account) = false := by
          simp [h1, h2]
        constructor
        · intro e he
          rw [find?_cons_neg (fun a => a.name == account || a.account_number == account)
            acct rest hpred] at he
          have := ih.1 e he
          simpa [normalizeAccount, h1, h2] using this
        · rw [find?_cons_neg (fun a => a.name == account || a.account_number == account)
            acct rest hpred]
          simpa [normalizeAccount, h1, h2] using ih.2

/-- Witness for C10: looking a concrete account number up in a
one-entry accounts list. -/
theorem C10_normalize_account_witness :
    normalizeAccount
        [{ name := "dev", account_number := "123456789012",
           default_region := "us-east-1" }] "123456789012"
      = some { name := "dev", account_number := "123456789012",
               default_region := "us-east-1" } :=
  (C10_normalize_account
      [{ name := "dev", account_number := "123456789012",
         default_region := "us-east-1" }] "123456789012").1
    { name := "dev", account_number := "123456789012", default_region := "us-east-1" }
    rfl

/-- Pixels outside every box are untouched by the blur loop. -/
theorem blurBoxes_outside (blur : Frame → Frame) :
    ∀ (boxes : List Box) (f : Frame) (r c : Int),
      (∀ b ∈ boxes, inBox b r c = false) → blurBoxes blur boxes f r c = f r c := by
  intro boxes
  induction boxes with
  | nil => intro f r c _; rfl
  | cons b bs ih =>
    intro f r c hout
    have hb : inBox b r c = false := hout b (List.mem_cons_self b bs)
    have hrest := ih (writeRegion b (blur f) f) r c
      (fun b2 hb2 => hout b2 (List.mem_cons_of_mem b hb2))
    simp only [blurBoxes]
    rw [hrest]
    simp [writeRegion, hb]

/-- A list element fetched with `getD` at an in-range index is a
member. -/
theorem getD_mem_of_lt {α : Type} (d : α) :
    ∀ (l : List α) (j : Nat), j < l.length → l.getD j d ∈ l := by
  intro l
  induction l with
  | nil => intro j h; simp at h
  | cons a t ih =>
    intro j h
    cases j with
    | zero => simp
    | succ j =>
      simp only [List.getD_cons_succ]
      exact List.mem_cons_of_mem a (ih j (by simpa using h))

/-- A pixel inside some kept box ends up holding a blurred value: the
final pixel is `blur` of the intermediate frame reached just before the
last box covering the pixel was processed. -/
theorem blurBoxes_inside (blur : Frame → Frame) :
    ∀ (boxes : List Box) (f : Frame) (r c : Int),
      (∃ b ∈ boxes, inBox b r c = true) →
      ∃ k, k < boxes.length ∧ inBox (boxes.getD k defaultBox) r c = true ∧
        blurBoxes blur boxes f r c = blur (blurBoxes blur (boxes.take k) f) r c ∧
        ∀ j, k < j → j < boxes.length → inBox (boxes.getD j defaultBox) r c = false := by
  intro boxes
  induction boxes with
  | nil =>
    intro f r c hex
    obtain ⟨b, hb, _⟩ := hex
    exact absurd hb (List.not_mem_nil b)
  | cons b bs ih =>
    intro f r c hex
    by_cases hbs : ∃ b2 ∈ bs, inBox b2 r c = true
    · obtain ⟨k, hk, hkin, heq, hlast⟩ := ih (writeRegion b (blur f) f) r c hbs
      refine ⟨k + 1, by simpa using Nat.succ_lt_succ hk, by simpa using hkin, ?_, ?_⟩
      · simp only [blurBoxes, List.take_succ_cons]
        exact heq
      · intro j hj1 hj2
        cases j with
        | zero => omega
        | succ j =>
          simp only [List.getD_cons_succ]
          exact hlast j (by omega) (by simpa using hj2)
    · push_neg at hbs
      have hbs2 : ∀ b2 ∈ bs, inBox b2 r c = false :=
        fun b2 h2 => Bool.eq_false_iff.mpr (hbs b2 h2)
      have hb : inBox b r c = true := by
        obtain ⟨b2, hb2, hin⟩ := hex
        rcases List.mem_cons.mp hb2 with rfl | hmem
        · exact hin
        · rw [hbs2 b2 hmem] at hin
          exact absurd hin (by simp)
      refine ⟨0, Nat.succ_pos bs.length, by simpa using hb, ?_, ?_⟩
      · simp only [blurBoxes, List.take_zero]
        rw [blurBoxes_outside blur bs (writeRegion b (blur f) f) r c hbs2]
        simp [writeRegion, hb]
      · intro j hj1 hj2
        cases j with
        | zero => omega
        | succ j =>
          simp only [List.getD_cons_succ]
          exact hbs2 (bs.getD j defaultBox)
            (getD_mem_of_lt defaultBox bs j (by simpa using hj2))

/-- The value `argmaxAux` points at equals the running fold of `max`. -/
theorem argmaxAux_getD (l : List ℚ) :
    ∀ (s : List ℚ) (i b : Nat) (bv : ℚ),
      s.getD b 0 = bv → (∀ k, s.getD (i + k) 0 = l.getD k 0) →
      s.getD (argmaxAux l i bv b) 0 = l.foldl max bv := by
  induction l with
  | nil =>
    intro s i b bv hb _
    simpa [argmaxAux] using hb
  | cons v rest ih =>
    intro s i b bv hb hsh
    have hv : s.getD i 0 = v := by simpa using hsh 0
    have hsh2 : ∀ k, s.getD ((i + 1) + k) 0 = rest.getD k 0 := by
      intro k
      have h := hsh (k + 1)
      rw [show i + (k + 1) = (i + 1) + k by omega] at h
      simpa using h
    by_cases hlt : bv < v
    · simp only [argmaxAux, if_pos hlt, List.foldl_cons]
      rw [ih s (i + 1) i v hv hsh2]
      rw [max_eq_right (le_of_lt hlt)]
    · simp only [argmaxAux, if_neg hlt, List.foldl_cons]
      rw [ih s (i + 1) b bv hb hsh2]
      rw [max_eq_left (le_of_not_lt hlt)]

/-- On a nonempty score list, `confidence = scores[argmax(scores)]` is
the `max`-fold of the scores. -/
theorem confidenceOf_eq_foldl (d : Detection) (v : ℚ) (rest : List ℚ)
    (hs : d.scores = v :: rest) : confidenceOf d = rest.foldl max v := by
  unfold confidenceOf argmax
  rw [hs]
  dsimp only
  exact argmaxAux_getD rest (v :: rest) 1 0 v (by simp)
    (fun k => by rw [show 1 + k = k + 1 by omega]; simp)

/-- The `max`-fold of a list is the start value or a member. -/
theorem foldl_max_mem (l : List ℚ) :
    ∀ a : ℚ, l.foldl max a = a ∨ l.foldl max a ∈ l := by
  induction l with
  | nil => intro a; exact Or.inl rfl
  | cons v rest ih =>
    intro a
    rcases ih (max a v) with h | h
    · rcases le_total a v with hle | hle
      · refine Or.inr ?_
        rw [List.foldl_cons, h, max_eq_right hle]
        exact List.mem_cons_self v rest
      · refine Or.inl ?_
        rw [List.foldl_cons, h, max_eq_left hle]
    · exact Or.inr (List.mem_cons_of_mem v (by simpa [List.foldl_cons] using h))

/-- The `max`-fold bounds the start value and every member from above. -/
theorem le_foldl_max (l : List ℚ) :
    ∀ a : ℚ, a ≤ l.foldl max a ∧ ∀ q ∈ l, q ≤ l.foldl max a := by
  induction l with
  | nil => intro a; exact ⟨le_refl a, by simp⟩
  | cons v rest ih =>
    intro a
    obtain ⟨h1, h2⟩ := ih (max a v)
    refine ⟨?_, ?_⟩
    · rw [List.foldl_cons]
      exact le_trans (le_max_left a v) h1
    · intro q hq
      rcases List.mem_cons.mp hq with rfl | hmem
      · rw [List.foldl_cons]
        exact le_trans (le_max_right a q) h1
      · rw [List.foldl_cons]
        exact h2 q hmem

/-- **C5.** In the frame loop: every pixel outside all kept boxes is
written out unchanged; every pixel inside some kept box holds the
Gaussian-blurred value of the frame state at the last box covering it;
a candidate box is produced exactly from the detections passing the
confidence filter; and a detection passes the filter exactly when its
maximum class score strictly exceeds the threshold `0.05`. -/
theorem C5_frame_blur (blur : Frame → Frame) (f : Frame) (boxes : List Box)
    (d : Detection) (W H : ℚ) (dets : List Detection) (bx : Box) :
    (∀ r c, (∀ b ∈ boxes, inBox b r c = false) → blurBoxes blur boxes f r c = f r c) ∧
    (∀ r c, (∃ b ∈ boxes, inBox b r c = true) →
      ∃ k, k < boxes.length ∧ inBox (boxes.getD k defaultBox) r c = true ∧
        blurBoxes blur boxes f r c = blur (blurBoxes blur (boxes.take k) f) r c ∧
        ∀ j, k < j → j < boxes.length → inBox (boxes.getD j defaultBox) r c = false) ∧
    (bx ∈ candidateBoxes W H dets ↔
      ∃ d2 ∈ dets, keepDetection d2 = true ∧ bx = mkBox W H d2) ∧
    (d.scores ≠ [] →
      (keepDetection d = true ↔
        ∃ m ∈ d.scores, (∀ q ∈ d.scores, q ≤ m) ∧ confid < m)) := by
  refine ⟨fun r c => blurBoxes_outside blur boxes f r c,
    fun r c => blurBoxes_inside blur boxes f r c, ?_, ?_⟩
  · constructor
    · intro hmem
      simp only [candidateBoxes, List.mem_map, List.mem_filter] at hmem
      obtain ⟨d2, ⟨hd2, hkeep⟩, hbx⟩ := hmem
      exact ⟨d2, hd2, hkeep, hbx.symm⟩
    · intro hmem
      obtain ⟨d2, hd2, hkeep, hbx⟩ := hmem
      simp only [candidateBoxes, List.mem_map, List.mem_filter]
      exact ⟨d2, ⟨hd2, hkeep⟩, hbx.symm⟩
  · intro hne
    cases hs : d.scores with
    | nil => exact absurd hs hne
    | cons v rest =>
      have hconf : confidenceOf d = rest.foldl max v := confidenceOf_eq_foldl d v rest hs
      constructor
      · intro hkeep
        have hlt : confid < confidenceOf d := by
          simpa [keepDetection] using hkeep
        refine ⟨rest.foldl max v, ?_, ?_, by rwa [hconf] at hlt⟩
        · rcases foldl_max_mem rest v with h | h
          · rw [h]
            exact List.mem_cons_self v rest
          · exact List.mem_cons_of_mem v h
        · intro q hq
          rcases List.mem_cons.mp hq with rfl | hmem
          · exact (le_foldl_max rest q).1
          · exact (le_foldl_max rest v).2 q hmem
      · intro hex
        obtain ⟨m, hm, hbound, hlt⟩ := hex
        have hmle : m ≤ rest.foldl max v := by
          rcases List.mem_cons.mp hm with rfl | hmem
          · exact (le_foldl_max rest m).1
          · exact (le_foldl_max rest v).2 m hmem
        have : confid < confidenceOf d := by
          rw [hconf]
          exact lt_of_lt_of_le hlt hmle
        simpa [keepDetection] using this

/-- Witness for C5 at concrete inputs: an outside pixel is unchanged, an
inside pixel is blurred, and a 0.1-score detection passes the 0.05
threshold. -/
theorem C5_frame_blur_witness :
    blurBoxes sampleBlur [sampleBox] sampleFrame 5 5 = sampleFrame 5 5 ∧
      (∃ k, k < [sampleBox].length ∧
        inBox ([sampleBox].getD k defaultBox) 0 0 = true ∧
        blurBoxes sampleBlur [sampleBox] sampleFrame 0 0
          = sampleBlur (blurBoxes sampleBlur ([sampleBox].take k) sampleFrame) 0 0 ∧
        ∀ j, k < j → j < [sampleBox].length →
          inBox ([sampleBox].getD j defaultBox) 0 0 = false) ∧
      (keepDetection sampleDetection = true ↔
        ∃ m ∈ sampleDetection.scores,
          (∀ q ∈ sampleDetection.scores, q ≤ m) ∧ confid < m) :=
  ⟨(C5_frame_blur sampleBlur sampleFrame [sampleBox] sampleDetection 416 416 [] defaultBox).1
      5 5 (fun b hb => by rcases List.mem_singleton.mp hb with rfl; decide),
    (C5_frame_blur sampleBlur sampleFrame [sampleBox] sampleDetection 416 416 [] defaultBox).2.1
      0 0 ⟨sampleBox, List.mem_singleton.mpr rfl, by decide⟩,
    (C5_frame_blur sampleBlur sampleFrame [sampleBox] sampleDetection 416 416 [] defaultBox).2.2.2
      (by simp [sampleDetection])⟩

/-- **C8.** After `process_video`, the processed frames live in the
`upload` field under the name `new`, `processed_video` is carried over
unchanged — in particular a video created by the upload view still has
`processed_video = none` after processing — so the original upload
reference is replaced rather than a separate processed file recorded. -/
theorem C8_process_video_save (blur : Frame → Frame) (nms : Frame → List Box)
    (frames : List Frame) (v : VideoRec) (f : FileVal) :
    (processVideoModel blur nms frames v).upload
        = FileVal.file "new" (frames.map (fun fr => blurBoxes blur (nms fr) fr)) ∧
      (processVideoModel blur nms frames v).processed_video = v.processed_video ∧
      (createVideo f).processed_video = none ∧
      (processVideoModel blur nms frames (createVideo f)).processed_video = none :=
  ⟨rfl, rfl, rfl, rfl⟩

/-- A session saved by `markProcessed` has its `processed` flag set for
the matching primary key. -/
theorem markProcessed_processed (db : Db) (sid : Nat) :
    ∀ t ∈ (markProcessed db sid).sessions, t.sid = sid → t.processed = true := by
  intro t ht hts
  simp only [markProcessed, List.mem_map] at ht
  obtain ⟨u, _, rfl⟩ := ht
  by_cases h : (u.sid == sid) = true
  · simp [h]
  · rw [if_neg (by simp [h])] at hts ⊢
    exact absurd (by simp [hts]) h

/-- **C6.** When the session id resolves (POST: first unprocessed
session with that id; GET: first session with that id), `download`
returns the `application/x-zip-compressed` response whose entries place
each image of the session under `FILE/` with its file name (read from
`BASE_DIR + url`), and the saved database has that session's
`processed` flag set. -/
theorem C6_download_zip (baseDir : String) (sid : Nat) (db : Db) (s : SessionRec) :
    ((db.sessions.filter (fun t => !t.processed && t.sid == sid)).head? = some s →
      download baseDir HttpMethod.post sid db
          = (DownloadResp.zipResponse "application/x-zip-compressed"
              (s.images.map (fun img =>
                ("FILE/" ++ fileNameOf img.uploadUrl, baseDir ++ img.uploadUrl))),
             markProcessed db s.sid) ∧
        ∀ t ∈ (markProcessed db s.sid).sessions, t.sid = s.sid → t.processed = true) ∧
    ((db.sessions.filter (fun t => t.sid == sid)).head? = some s →
      download baseDir HttpMethod.get sid db
          = (DownloadResp.zipResponse "application/x-zip-compressed"
              (s.images.map (fun img =>
                ("FILE/" ++ fileNameOf img.uploadUrl, baseDir ++ img.uploadUrl))),
             markProcessed db s.sid) ∧
        ∀ t ∈ (markProcessed db s.sid).sessions, t.sid = s.sid → t.processed = true) := by
  constructor
  · intro h
    refine ⟨?_, markProcessed_processed db s.sid⟩
    simp only [download, zipEntries]
    rw [h]
  · intro h
    refine ⟨?_, markProcessed_processed db s.sid⟩
    simp only [download, zipEntries]
    rw [h]

/-- Witness for C6: a one-session database with one image. -/
theorem C6_download_zip_witness :
    download "/base" HttpMethod.post 7 sampleDb
        = (DownloadResp.zipResponse "application/x-zip-compressed"
            (sampleSession.images.map (fun img =>
              ("FILE/" ++ fileNameOf img.uploadUrl, "/base" ++ img.uploadUrl))),
           markProcessed sampleDb sampleSession.sid) ∧
      ∀ t ∈ (markProcessed sampleDb sampleSession.sid).sessions,
        t.sid = sampleSession.sid → t.processed = true :=
  (C6_download_zip "/base" 7 sampleDb sampleSession).1 rfl

/-- **C9.** A POST to `download` succeeds at most once per session id:
if a POST did not 404, the next POST for the same id 404s (the POST
branch only selects `processed=False` rows and marks the hit
processed); and a POST whose filtered queryset is empty (nonexistent id
or already-processed session) 404s. -/
theorem C9_download_once (baseDir : String) (sid : Nat) (db : Db) :
    ((download baseDir HttpMethod.post sid db).1 ≠ DownloadResp.http404 →
      (download baseDir HttpMethod.post sid
          (download baseDir HttpMethod.post sid db).2).1 = DownloadResp.http404) ∧
    ((db.sessions.filter (fun t => !t.processed && t.sid == sid)).head? = none →
      (download baseDir HttpMethod.post sid db).1 = DownloadResp.http404) := by
  constructor
  · intro hne
    cases hh : (db.sessions.filter (fun t => !t.processed && t.sid == sid)).head? with
    | none =>
      exfalso
      refine hne ?_
      simp only [download]
      rw [hh]
    | some s =>
      have hd : download baseDir HttpMethod.post sid db
          = (DownloadResp.zipResponse "application/x-zip-compressed"
              (zipEntries baseDir s.images), markProcessed db s.sid) := by
        simp only [download]
        rw [hh]
      have hsmem : s ∈ db.sessions.filter (fun t => !t.processed && t.sid == sid) := by
        obtain ⟨ys, hys⟩ := List.head?_eq_some_iff.mp hh
        rw [hys]
        exact List.mem_cons_self s ys
      have hpred : (!s.processed && s.sid == sid) = true :=
        (List.mem_filter.mp hsmem).2
      have hsid : s.sid = sid := by
        simp only [Bool.and_eq_true] at hpred
        exact eq_of_beq hpred.2
      have hempty : (markProcessed db s.sid).sessions.filter
          (fun t => !t.processed && t.sid == sid) = [] := by
        rw [List.filter_eq_nil_iff]
        intro t ht
        simp only [markProcessed, List.mem_map] at ht
        obtain ⟨u, _, rfl⟩ := ht
        by_cases hu : (u.sid == s.sid) = true
        · rw [if_pos hu]
          simp
        · rw [if_neg (by simp [hu])]
          intro hcon
          simp only [Bool.and_eq_true] at hcon
          have : u.sid = s.sid := by rw [eq_of_beq hcon.2, hsid]
          exact hu (by simp [this])
      rw [hd]
      simp only [download]
      rw [hempty]
      rfl
  · intro h
    simp only [download]
    rw [h]

/-- Witness for C9: after a successful POST on a fresh session, the
second POST 404s; and an id with no unprocessed session 404s. -/
theorem C9_download_once_witness :
    (download "/base" HttpMethod.post 7
        (download "/base" HttpMethod.post 7 sampleDb).2).1 = DownloadResp.http404 ∧
      (download "/base" HttpMethod.post 9 sampleDb).1 = DownloadResp.http404 :=
  ⟨(C9_download_once "/base" 7 sampleDb).1 (by decide),
    (C9_download_once "/base" 9 sampleDb).2 rfl⟩

end LPRVerify
